import Mathlib

/-!
Shallow embedding of the finance-tracker backend (Django/DRF) core:
per-user ownership scoping of Category / Transaction / Budget CRUD,
serializer validation, token lifecycle of the accounts app.

Rows are records; the database is lists of rows.  Querysets are list
filters, mirroring `Model.objects.filter(...)`.  Money amounts are
integers in cents (2-decimal fixed point).  Months and years are `Int`
(Python ints), user and row ids are `Nat` (positive auto pks).
-/

namespace FT

/-- Transaction.TransactionType: INCOME, EXPENSE, TRANSFER. -/
inductive TransactionType where
  | income
  | expense
  | transfer
deriving DecidableEq, Repr

/-- transactions.models.Category: name, user FK, created_at elided. -/
structure Category where
  id : Nat
  name : String
  user : Nat
deriving DecidableEq, Repr

/-- transactions.models.Transaction: user FK, nullable category FK,
amount (cents), description, date (day number), transaction_type. -/
structure Transaction where
  id : Nat
  user : Nat
  category : Option Nat
  amount : Int
  description : String
  date : Nat
  transaction_type : TransactionType
deriving DecidableEq, Repr

/-- budgets.models.Budget: user FK, category FK (required), amount
(cents), month, year. -/
structure Budget where
  id : Nat
  user : Nat
  category : Nat
  amount : Int
  month : Int
  year : Int
deriving DecidableEq, Repr

/-- The relational store: one table per model. -/
structure Database where
  categories : List Category
  transactions : List Transaction
  budgets : List Budget
deriving DecidableEq, Repr

/-- CategoryViewSet.get_queryset: Category.objects.filter(user=request.user). -/
def CategoryViewSet.get_queryset (db : Database) (user : Nat) : List Category :=
  db.categories.filter (fun c => c.user == user)

/-- TransactionViewSet.get_queryset: Transaction.objects.filter(user=request.user). -/
def TransactionViewSet.get_queryset (db : Database) (user : Nat) : List Transaction :=
  db.transactions.filter (fun t => t.user == user)

/-- BudgetViewSet.get_queryset: Budget.objects.filter(user=request.user). -/
def BudgetViewSet.get_queryset (db : Database) (user : Nat) : List Budget :=
  db.budgets.filter (fun b => b.user == user)

/-- DRF get_object on the detail routes: look the pk up inside the
owner-scoped queryset; absence is a 404 (none). -/
def CategoryViewSet.get_object (db : Database) (user pk : Nat) : Option Category :=
  (CategoryViewSet.get_queryset db user).find? (fun c => c.id == pk)

def TransactionViewSet.get_object (db : Database) (user pk : Nat) : Option Transaction :=
  (TransactionViewSet.get_queryset db user).find? (fun t => t.id == pk)

def BudgetViewSet.get_object (db : Database) (user pk : Nat) : Option Budget :=
  (BudgetViewSet.get_queryset db user).find? (fun b => b.id == pk)

/-- destroy on the detail route: 404 (none) when the pk is not in the
caller's queryset, else delete that row. -/
def CategoryViewSet.destroy (db : Database) (user pk : Nat) : Option Database :=
  match CategoryViewSet.get_object db user pk with
  | none => none
  | some _ => some { db with categories := db.categories.filter (fun c => !(c.id == pk)) }

def TransactionViewSet.destroy (db : Database) (user pk : Nat) : Option Database :=
  match TransactionViewSet.get_object db user pk with
  | none => none
  | some _ => some { db with transactions := db.transactions.filter (fun t => !(t.id == pk)) }

def BudgetViewSet.destroy (db : Database) (user pk : Nat) : Option Database :=
  match BudgetViewSet.get_object db user pk with
  | none => none
  | some _ => some { db with budgets := db.budgets.filter (fun b => !(b.id == pk)) }

/-- Two databases agree outside user `b` when erasing the rows owned by
`b` from each yields the same tables: the second is the first with
arbitrary changes confined to the rows of `b`. -/
def agreeOutside (b : Nat) (db dbAlt : Database) : Prop :=
  db.categories.filter (fun c => !(c.user == b)) = dbAlt.categories.filter (fun c => !(c.user == b)) ∧
  db.transactions.filter (fun t => !(t.user == b)) = dbAlt.transactions.filter (fun t => !(t.user == b)) ∧
  db.budgets.filter (fun x => !(x.user == b)) = dbAlt.budgets.filter (fun x => !(x.user == b))

/-- Pk columns are unique in every table (primary-key constraint). -/
def pksUnique (db : Database) : Prop :=
  (db.categories.map Category.id).Nodup ∧
  (db.transactions.map Transaction.id).Nodup ∧
  (db.budgets.map Budget.id).Nodup

section IsolationLemmas

variable {α : Type} (ownerOf : α → Nat) (idOf : α → Nat)

/-- Rows surviving the owner filter carry the caller as owner. -/
theorem owner_of_mem_filter {l : List α} {a : Nat} {x : α}
    (hx : x ∈ l.filter (fun r => ownerOf r == a)) : ownerOf x = a := by
  have := List.of_mem_filter hx
  simpa using this

/-- With a unique pk column, searching the a-scoped filter of `l` for
the pk of a row owned by someone else finds nothing. -/
theorem find_other_owner_eq_none {l : List α} {a : Nat} {row : α}
    (hnodup : (l.map idOf).Nodup) (hrow : row ∈ l) (hother : ownerOf row ≠ a) :
    (l.filter (fun r => ownerOf r == a)).find? (fun r => idOf r == idOf row) = none := by
  rw [List.find?_eq_none]
  intro x hx
  have hxl : x ∈ l := List.mem_of_mem_filter hx
  have hxa : ownerOf x = a := owner_of_mem_filter ownerOf hx
  simp only [beq_iff_eq]
  intro hid
  have hinj := List.inj_on_of_nodup_map hnodup
  have : x = row := hinj hxl hrow hid
  exact hother (this ▸ hxa)

/-- The a-scoped filter only looks at rows not owned by `b` (for a ≠ b),
so it is insensitive to changes confined to the rows of `b`. -/
theorem filter_owner_agree {l lAlt : List α} {a b : Nat} (hab : a ≠ b)
    (h : l.filter (fun r => !(ownerOf r == b)) = lAlt.filter (fun r => !(ownerOf r == b))) :
    l.filter (fun r => ownerOf r == a) = lAlt.filter (fun r => ownerOf r == a) := by
  have key : ∀ m : List α,
      m.filter (fun r => ownerOf r == a) =
        (m.filter (fun r => !(ownerOf r == b))).filter (fun r => ownerOf r == a) := by
    intro m
    rw [List.filter_filter]
    apply List.filter_congr
    intro x _
    by_cases hx : ownerOf x = a
    · simp [hx, hab]
    · simp [hx]
  rw [key l, key lAlt, h]

end IsolationLemmas

/-- C1.  Ownership isolation of the three CRUD families:
list results of user `a` contain only rows owned by `a`; detail lookups
(retrieve/update/delete resolve through get_object) for a pk owned by
another user `b` answer not-found, and destroy on such a pk likewise
answers not-found (hence deletes nothing); and every list result of `a`
is unchanged when the database changes only in the rows owned by `b`. -/
theorem C1_owner_isolation (db : Database) (a b : Nat) (hab : a ≠ b)
    (hpk : pksUnique db) :
    (∀ c ∈ CategoryViewSet.get_queryset db a, c.user = a) ∧
    (∀ t ∈ TransactionViewSet.get_queryset db a, t.user = a) ∧
    (∀ x ∈ BudgetViewSet.get_queryset db a, x.user = a) ∧
    (∀ c ∈ db.categories, c.user = b → CategoryViewSet.get_object db a c.id = none) ∧
    (∀ t ∈ db.transactions, t.user = b → TransactionViewSet.get_object db a t.id = none) ∧
    (∀ x ∈ db.budgets, x.user = b → BudgetViewSet.get_object db a x.id = none) ∧
    (∀ c ∈ db.categories, c.user = b → CategoryViewSet.destroy db a c.id = none) ∧
    (∀ t ∈ db.transactions, t.user = b → TransactionViewSet.destroy db a t.id = none) ∧
    (∀ x ∈ db.budgets, x.user = b → BudgetViewSet.destroy db a x.id = none) ∧
    (∀ dbAlt : Database, agreeOutside b db dbAlt →
      CategoryViewSet.get_queryset db a = CategoryViewSet.get_queryset dbAlt a ∧
      TransactionViewSet.get_queryset db a = TransactionViewSet.get_queryset dbAlt a ∧
      BudgetViewSet.get_queryset db a = BudgetViewSet.get_queryset dbAlt a) := by
  obtain ⟨hpc, hpt, hpb⟩ := hpk
  have hb : b ≠ a := fun h => hab h.symm
  refine ⟨?_, ?_, ?_, ?_, ?_, ?_, ?_, ?_, ?_, ?_⟩
  · intro c hc; exact owner_of_mem_filter Category.user hc
  · intro t ht; exact owner_of_mem_filter Transaction.user ht
  · intro x hx; exact owner_of_mem_filter Budget.user hx
  · intro c hc hcb
    exact find_other_owner_eq_none Category.user Category.id hpc hc (hcb ▸ hb)
  · intro t ht htb
    exact find_other_owner_eq_none Transaction.user Transaction.id hpt ht (htb ▸ hb)
  · intro x hx hxb
    exact find_other_owner_eq_none Budget.user Budget.id hpb hx (hxb ▸ hb)
  · intro c hc hcb
    have h : CategoryViewSet.get_object db a c.id = none :=
      find_other_owner_eq_none Category.user Category.id hpc hc (hcb ▸ hb)
    unfold CategoryViewSet.destroy
    rw [h]
  · intro t ht htb
    have h : TransactionViewSet.get_object db a t.id = none :=
      find_other_owner_eq_none Transaction.user Transaction.id hpt ht (htb ▸ hb)
    unfold TransactionViewSet.destroy
    rw [h]
  · intro x hx hxb
    have h : BudgetViewSet.get_object db a x.id = none :=
      find_other_owner_eq_none Budget.user Budget.id hpb hx (hxb ▸ hb)
    unfold BudgetViewSet.destroy
    rw [h]
  · intro dbAlt hagree
    obtain ⟨h1, h2, h3⟩ := hagree
    exact ⟨filter_owner_agree Category.user hab h1,
           filter_owner_agree Transaction.user hab h2,
           filter_owner_agree Budget.user hab h3⟩

/-- Concrete instantiation of C1: two users, one row each per table. -/
theorem C1_owner_isolation_witness :
    (0 : Nat) ≠ 1 ∧
    pksUnique ⟨[⟨1, "Food", 0⟩, ⟨2, "Rent", 1⟩],
               [⟨1, 0, some 1, 100, "lunch", 5, .expense⟩],
               [⟨1, 1, 2, 500, 3, 2025⟩]⟩ ∧
    (∀ c ∈ CategoryViewSet.get_queryset ⟨[⟨1, "Food", 0⟩, ⟨2, "Rent", 1⟩],
               [⟨1, 0, some 1, 100, "lunch", 5, .expense⟩],
               [⟨1, 1, 2, 500, 3, 2025⟩]⟩ 0, c.user = 0) := by
  refine ⟨by decide, ⟨by decide, by decide, by decide⟩, ?_⟩
  have h := C1_owner_isolation
    ⟨[⟨1, "Food", 0⟩, ⟨2, "Rent", 1⟩],
     [⟨1, 0, some 1, 100, "lunch", 5, .expense⟩],
     [⟨1, 1, 2, 500, 3, 2025⟩]⟩ 0 1 (by decide) ⟨by decide, by decide, by decide⟩
  exact h.1

/-! ## Serializers -/

/-- Python str.strip() as used by the serializers: whitespace removed
from both ends (written on the character list so that it evaluates). -/
def pyStrip (s : String) : String :=
  String.mk (((s.data.dropWhile Char.isWhitespace).reverse.dropWhile
    Char.isWhitespace).reverse)

/-- A DRF ValidationError: attached to one field, or a non-field error
(the source raises the budget-uniqueness conflict under
non_field_errors explicitly). -/
inductive VErr where
  | fieldErr (fieldName msg : String)
  | nonField (msg : String)
deriving DecidableEq, Repr

/-- PrimaryKeyRelatedField resolution: an incoming category pk must
name an existing Category row, else a field-level error. -/
def resolveCategory (db : Database) (cid : Nat) : Except VErr Category :=
  match db.categories.find? (fun c => c.id == cid) with
  | some c => .ok c
  | none => .error (.fieldErr "category" "Invalid pk - object does not exist.")

/-- CategorySerializer.validate_name. -/
def CategorySerializer.validate_name (value : String) : Except VErr String :=
  if (pyStrip value).length < 2 then
    .error (.fieldErr "name" "Category name must be at least 2 characters long.")
  else .ok (pyStrip value)

/-- Incoming write payload for a Category; the user field is declared
read-only in the serializer, so a supplied owner never reaches
validated_data. -/
structure CategoryPayload where
  user : Option Nat
  name : String
deriving DecidableEq, Repr

/-- CategorySerializer.run_validation: the user field is read-only and
dropped; the name passes validate_name. -/
def CategorySerializer.run_validation (p : CategoryPayload) : Except VErr String :=
  CategorySerializer.validate_name p.name

/-- CategorySerializer.create: user auto-assigned from the request. -/
def CategorySerializer.create (requestUser newId : Nat) (name : String) : Category :=
  { id := newId, name := name, user := requestUser }

/-- Default ModelSerializer update for Category: only the writable name
field is set on the instance; user is read-only. -/
def CategorySerializer.update (inst : Category) (name : String) : Category :=
  { inst with name := name }

/-- TransactionSerializer.validate_amount. -/
def TransactionSerializer.validate_amount (value : Int) : Except VErr Int :=
  if value ≤ 0 then .error (.fieldErr "amount" "Amount must be greater than zero.")
  else .ok value

/-- TransactionSerializer.validate_description. -/
def TransactionSerializer.validate_description (value : String) : Except VErr String :=
  if (pyStrip value).length < 2 then
    .error (.fieldErr "description" "Description must be at least 2 characters long.")
  else .ok (pyStrip value)

/-- TransactionSerializer.validate_category: a supplied category must
belong to the request user; a null / omitted category passes. -/
def TransactionSerializer.validate_category (requestUser : Nat) (value : Option Category) :
    Except VErr (Option Category) :=
  match value with
  | none => .ok none
  | some c =>
      if c.user ≠ requestUser then
        .error (.fieldErr "category" "You can only use your own categories.")
      else .ok (some c)

/-- Incoming write payload for a Transaction: user is read-only
(ignored), category optional and nullable, transaction_type optional
(model default EXPENSE). -/
structure TransactionPayload where
  user : Option Nat
  category : Option Nat
  amount : Int
  description : String
  date : Nat
  transaction_type : Option TransactionType
deriving DecidableEq, Repr

/-- validated_data for a Transaction write. -/
structure TransactionValidated where
  category : Option Category
  amount : Int
  description : String
  date : Nat
  transaction_type : TransactionType
deriving DecidableEq, Repr

/-- TransactionSerializer.run_validation: resolve the category pk when
supplied, then the field validators in declared field order; an omitted
transaction_type takes the model default EXPENSE. -/
def TransactionSerializer.run_validation (db : Database) (requestUser : Nat)
    (p : TransactionPayload) : Except VErr TransactionValidated :=
  match (match p.category with
         | none => Except.ok (none : Option Category)
         | some cid =>
             match resolveCategory db cid with
             | .error e => .error e
             | .ok c => .ok (some c)) with
  | .error e => .error e
  | .ok cat0 =>
    match TransactionSerializer.validate_category requestUser cat0 with
    | .error e => .error e
    | .ok cat =>
      match TransactionSerializer.validate_amount p.amount with
      | .error e => .error e
      | .ok amount =>
        match TransactionSerializer.validate_description p.description with
        | .error e => .error e
        | .ok descr =>
            .ok { category := cat, amount := amount, description := descr,
                  date := p.date,
                  transaction_type := p.transaction_type.getD TransactionType.expense }

/-- TransactionSerializer.create: user auto-assigned from the request
(validated_data never carries a caller-supplied user). -/
def TransactionSerializer.create (requestUser newId : Nat) (v : TransactionValidated) :
    Transaction :=
  { id := newId, user := requestUser, category := v.category.map Category.id,
    amount := v.amount, description := v.description, date := v.date,
    transaction_type := v.transaction_type }

/-- TransactionSerializer.update: pops any user from validated_data and
sets the remaining writable fields on the instance. -/
def TransactionSerializer.update (inst : Transaction) (v : TransactionValidated) :
    Transaction :=
  { inst with
    category := (v.category.map Category.id)
    amount := v.amount
    description := v.description
    date := v.date
    transaction_type := v.transaction_type }

/-- BudgetSerializer.validate_amount. -/
def BudgetSerializer.validate_amount (value : Int) : Except VErr Int :=
  if value ≤ 0 then .error (.fieldErr "amount" "Budget amount must be greater than zero.")
  else .ok value

/-- The MinValueValidator(1) / MaxValueValidator(12) declared on
Budget.month; ModelSerializer copies model-field validators onto the
generated serializer field, so they run on every write. -/
def Budget.monthFieldValidators (value : Int) : Except VErr Int :=
  if value < 1 then .error (.fieldErr "month" "Ensure this value is greater than or equal to 1.")
  else if value > 12 then .error (.fieldErr "month" "Ensure this value is less than or equal to 12.")
  else .ok value

/-- BudgetSerializer.validate_month. -/
def BudgetSerializer.validate_month (value : Int) : Except VErr Int :=
  if value < 1 ∨ value > 12 then
    .error (.fieldErr "month" "Month must be between 1 and 12.")
  else .ok value

/-- The MinValueValidator(2000) / MaxValueValidator(2100) declared on
Budget.year, likewise copied onto the serializer field. -/
def Budget.yearFieldValidators (value : Int) : Except VErr Int :=
  if value < 2000 then .error (.fieldErr "year" "Ensure this value is greater than or equal to 2000.")
  else if value > 2100 then .error (.fieldErr "year" "Ensure this value is less than or equal to 2100.")
  else .ok value

/-- BudgetSerializer.validate_year: within five years of the current
year, read from the clock at write time. -/
def BudgetSerializer.validate_year (currentYear value : Int) : Except VErr Int :=
  if value < currentYear - 5 ∨ value > currentYear + 5 then
    .error (.fieldErr "year" "Year must be within 5 years of the current year.")
  else .ok value

/-- BudgetSerializer.validate_category: the category must belong to the
request user. -/
def BudgetSerializer.validate_category (requestUser : Nat) (value : Category) :
    Except VErr Category :=
  if value.user ≠ requestUser then
    .error (.fieldErr "category" "You can only use your own categories.")
  else .ok value

/-- validated_data for a Budget write. -/
structure BudgetValidated where
  category : Category
  amount : Int
  month : Int
  year : Int
deriving DecidableEq, Repr

/-- The filter body of Budget.objects.filter(user=user, category=category,
month=month, year=year) in BudgetSerializer.validate. -/
def budgetKeyMatches (requestUser cid : Nat) (m y : Int) (x : Budget) : Bool :=
  x.user == requestUser && x.category == cid && x.month == m && x.year == y

/-- BudgetSerializer.validate (object level): no other budget of the
same user for the same (category, month, year); on update the instance
itself is excluded from the conflict query.  The truthiness guard on
month and year mirrors the source. -/
def BudgetSerializer.validate (db : Database) (requestUser : Nat)
    (instancePk : Option Nat) (v : BudgetValidated) : Except VErr BudgetValidated :=
  if v.month ≠ 0 ∧ v.year ≠ 0 then
    let query := db.budgets.filter (budgetKeyMatches requestUser v.category.id v.month v.year)
    let query : List Budget := match instancePk with
      | some pk => query.filter (fun x => !(x.id == pk))
      | none => query
    if query.isEmpty then .ok v
    else .error (.nonField "A budget for this category in this month and year already exists.")
  else .ok v

/-- Incoming write payload for a Budget: user read-only (ignored),
category required. -/
structure BudgetPayload where
  user : Option Nat
  category : Nat
  amount : Int
  month : Int
  year : Int
deriving DecidableEq, Repr

/-- BudgetSerializer.run_validation: resolve the required category pk,
run the per-field validators (model-field validators then the
validate_ methods) in declared field order, then the object-level
validate. -/
def BudgetSerializer.run_validation (db : Database) (requestUser : Nat)
    (currentYear : Int) (instancePk : Option Nat) (p : BudgetPayload) :
    Except VErr BudgetValidated :=
  match resolveCategory db p.category with
  | .error e => .error e
  | .ok c0 =>
    match BudgetSerializer.validate_category requestUser c0 with
    | .error e => .error e
    | .ok cat =>
      match BudgetSerializer.validate_amount p.amount with
      | .error e => .error e
      | .ok amount =>
        match Budget.monthFieldValidators p.month with
        | .error e => .error e
        | .ok m0 =>
          match BudgetSerializer.validate_month m0 with
          | .error e => .error e
          | .ok month =>
            match Budget.yearFieldValidators p.year with
            | .error e => .error e
            | .ok y0 =>
              match BudgetSerializer.validate_year currentYear y0 with
              | .error e => .error e
              | .ok year =>
                  BudgetSerializer.validate db requestUser instancePk
                    { category := cat, amount := amount, month := month, year := year }

/-- BudgetSerializer.create: user auto-assigned from the request. -/
def BudgetSerializer.create (requestUser newId : Nat) (v : BudgetValidated) : Budget :=
  { id := newId, user := requestUser, category := v.category.id,
    amount := v.amount, month := v.month, year := v.year }

/-- BudgetSerializer.update: pops any user from validated_data and sets
the writable fields on the instance. -/
def BudgetSerializer.update (inst : Budget) (v : BudgetValidated) : Budget :=
  { inst with
    category := v.category.id
    amount := v.amount
    month := v.month
    year := v.year }

/-- An Except value that carries an error (a raised ValidationError). -/
def isErr {α : Type} : Except VErr α → Bool
  | .error _ => true
  | .ok _ => false

/-- The row-level uniqueness constraint unique_together =
(user, category, month, year) on the budgets table. -/
def budgetUniqueConstraint (db : Database) : Prop :=
  ∀ x ∈ db.budgets, ∀ y ∈ db.budgets,
    x.user = y.user → x.category = y.category → x.month = y.month → x.year = y.year → x = y

/-! ### Inversion lemmas for the validators -/

theorem resolveCategory_ok {db : Database} {cid : Nat} {c : Category}
    (h : resolveCategory db cid = .ok c) :
    db.categories.find? (fun x => x.id == cid) = some c := by
  unfold resolveCategory at h
  split at h
  · cases h; assumption
  · cases h

theorem budget_validate_category_ok {u : Nat} {c d : Category}
    (h : BudgetSerializer.validate_category u c = .ok d) : c.user = u ∧ d = c := by
  unfold BudgetSerializer.validate_category at h
  split at h
  · cases h
  · cases h
    exact ⟨by omega, rfl⟩

theorem budget_validate_amount_ok {a b : Int}
    (h : BudgetSerializer.validate_amount a = .ok b) : 0 < a ∧ b = a := by
  unfold BudgetSerializer.validate_amount at h
  split at h
  · cases h
  · cases h
    exact ⟨by omega, rfl⟩

theorem budget_monthFieldValidators_ok {a b : Int}
    (h : Budget.monthFieldValidators a = .ok b) : 1 ≤ a ∧ a ≤ 12 ∧ b = a := by
  unfold Budget.monthFieldValidators at h
  split at h
  · cases h
  · split at h
    · cases h
    · cases h
      exact ⟨by omega, by omega, rfl⟩

theorem budget_validate_month_ok {a b : Int}
    (h : BudgetSerializer.validate_month a = .ok b) : 1 ≤ a ∧ a ≤ 12 ∧ b = a := by
  unfold BudgetSerializer.validate_month at h
  split at h
  · cases h
  · cases h
    exact ⟨by omega, by omega, rfl⟩

theorem budget_yearFieldValidators_ok {a b : Int}
    (h : Budget.yearFieldValidators a = .ok b) : 2000 ≤ a ∧ a ≤ 2100 ∧ b = a := by
  unfold Budget.yearFieldValidators at h
  split at h
  · cases h
  · split at h
    · cases h
    · cases h
      exact ⟨by omega, by omega, rfl⟩

theorem budget_validate_year_ok {cy a b : Int}
    (h : BudgetSerializer.validate_year cy a = .ok b) :
    cy - 5 ≤ a ∧ a ≤ cy + 5 ∧ b = a := by
  unfold BudgetSerializer.validate_year at h
  split at h
  · cases h
  · cases h
    exact ⟨by omega, by omega, rfl⟩

theorem budget_validate_ok {db : Database} {u : Nat} {inst : Option Nat}
    {v w : BudgetValidated}
    (h : BudgetSerializer.validate db u inst v = .ok w) : w = v := by
  unfold BudgetSerializer.validate at h
  split at h
  · split at h
    all_goals dsimp only at h
    all_goals split at h
    all_goals cases h
    all_goals rfl
  · cases h; rfl

/-- Full inversion for the Budget write pipeline: a validated result
pins every field of validated_data and certifies every check. -/
theorem budget_run_validation_ok {db : Database} {u : Nat} {cy : Int}
    {inst : Option Nat} {p : BudgetPayload} {v : BudgetValidated}
    (h : BudgetSerializer.run_validation db u cy inst p = .ok v) :
    resolveCategory db p.category = .ok v.category ∧ v.category.user = u ∧
    0 < p.amount ∧ v.amount = p.amount ∧
    1 ≤ p.month ∧ p.month ≤ 12 ∧ v.month = p.month ∧
    2000 ≤ p.year ∧ p.year ≤ 2100 ∧ cy - 5 ≤ p.year ∧ p.year ≤ cy + 5 ∧
    v.year = p.year := by
  unfold BudgetSerializer.run_validation at h
  cases hres : resolveCategory db p.category with
  | error e => rw [hres] at h; cases h
  | ok c0 =>
  rw [hres] at h; dsimp only at h
  cases hcat : BudgetSerializer.validate_category u c0 with
  | error e => rw [hcat] at h; cases h
  | ok cat =>
  rw [hcat] at h; dsimp only at h
  cases hamt : BudgetSerializer.validate_amount p.amount with
  | error e => rw [hamt] at h; cases h
  | ok amount =>
  rw [hamt] at h; dsimp only at h
  cases hm0 : Budget.monthFieldValidators p.month with
  | error e => rw [hm0] at h; cases h
  | ok m0 =>
  rw [hm0] at h; dsimp only at h
  cases hmon : BudgetSerializer.validate_month m0 with
  | error e => rw [hmon] at h; cases h
  | ok month =>
  rw [hmon] at h; dsimp only at h
  cases hy0 : Budget.yearFieldValidators p.year with
  | error e => rw [hy0] at h; cases h
  | ok y0 =>
  rw [hy0] at h; dsimp only at h
  cases hyr : BudgetSerializer.validate_year cy y0 with
  | error e => rw [hyr] at h; cases h
  | ok year =>
  rw [hyr] at h; dsimp only at h
  obtain ⟨hcu, hceq⟩ := budget_validate_category_ok hcat
  obtain ⟨hap, haeq⟩ := budget_validate_amount_ok hamt
  obtain ⟨hm1, hm2, hmeq0⟩ := budget_monthFieldValidators_ok hm0
  obtain ⟨_, _, hmeq⟩ := budget_validate_month_ok hmon
  obtain ⟨hy1, hy2, hyeq0⟩ := budget_yearFieldValidators_ok hy0
  obtain ⟨hy3, hy4, hyeq⟩ := budget_validate_year_ok hyr
  have hv := budget_validate_ok h
  subst hceq haeq hmeq0 hmeq hyeq0 hyeq
  subst hv
  exact ⟨rfl, hcu, hap, rfl, hm1, hm2, rfl, hy1, hy2, by omega, by omega, rfl⟩

/-! ### Acceptance lemmas for the validators -/

theorem budget_validate_category_accepts {u : Nat} {c : Category} (h : c.user = u) :
    BudgetSerializer.validate_category u c = .ok c := by
  unfold BudgetSerializer.validate_category
  rw [if_neg]
  omega

theorem budget_validate_amount_accepts {a : Int} (h : 0 < a) :
    BudgetSerializer.validate_amount a = .ok a := by
  unfold BudgetSerializer.validate_amount
  rw [if_neg]
  omega

theorem budget_monthFieldValidators_accepts {a : Int} (h1 : 1 ≤ a) (h2 : a ≤ 12) :
    Budget.monthFieldValidators a = .ok a := by
  unfold Budget.monthFieldValidators
  rw [if_neg (by omega), if_neg (by omega)]

theorem budget_validate_month_accepts {a : Int} (h1 : 1 ≤ a) (h2 : a ≤ 12) :
    BudgetSerializer.validate_month a = .ok a := by
  unfold BudgetSerializer.validate_month
  rw [if_neg]
  omega

theorem budget_yearFieldValidators_accepts {a : Int} (h1 : 2000 ≤ a) (h2 : a ≤ 2100) :
    Budget.yearFieldValidators a = .ok a := by
  unfold Budget.yearFieldValidators
  rw [if_neg (by omega), if_neg (by omega)]

theorem budget_validate_year_accepts {cy a : Int} (h1 : cy - 5 ≤ a) (h2 : a ≤ cy + 5) :
    BudgetSerializer.validate_year cy a = .ok a := by
  unfold BudgetSerializer.validate_year
  rw [if_neg]
  omega

/-- Create path: no existing budget row matches the key. -/
theorem budget_validate_create_accepts {db : Database} {u : Nat} {v : BudgetValidated}
    (h : db.budgets.filter (budgetKeyMatches u v.category.id v.month v.year) = []) :
    BudgetSerializer.validate db u none v = .ok v := by
  unfold BudgetSerializer.validate
  by_cases hg : v.month ≠ 0 ∧ v.year ≠ 0
  · rw [if_pos hg]
    dsimp only
    rw [h]
    rfl
  · rw [if_neg hg]

/-- Update path: every matching row is the instance itself. -/
theorem budget_validate_update_accepts {db : Database} {u pk : Nat} {v : BudgetValidated}
    (h : ∀ x ∈ db.budgets, budgetKeyMatches u v.category.id v.month v.year x → x.id = pk) :
    BudgetSerializer.validate db u (some pk) v = .ok v := by
  unfold BudgetSerializer.validate
  by_cases hg : v.month ≠ 0 ∧ v.year ≠ 0
  · rw [if_pos hg]
    dsimp only
    have hempty :
        (db.budgets.filter (budgetKeyMatches u v.category.id v.month v.year)).filter
          (fun x => !(x.id == pk)) = [] := by
      rw [List.filter_eq_nil_iff]
      intro x hx
      have hxl : x ∈ db.budgets := List.mem_of_mem_filter hx
      have hxp := List.of_mem_filter hx
      have hid : x.id = pk := h x hxl hxp
      simp [hid]
    rw [hempty]
    rfl
  · rw [if_neg hg]

/-- When every field validator passes, the pipeline reduces to the
object-level validate on the assembled validated_data. -/
theorem budget_run_validation_eq_validate {db : Database} {u : Nat} {cy : Int}
    {inst : Option Nat} {p : BudgetPayload} {c : Category}
    (hres : resolveCategory db p.category = .ok c)
    (howner : c.user = u) (hamt : 0 < p.amount)
    (hm1 : 1 ≤ p.month) (hm2 : p.month ≤ 12)
    (hy1 : 2000 ≤ p.year) (hy2 : p.year ≤ 2100)
    (hy3 : cy - 5 ≤ p.year) (hy4 : p.year ≤ cy + 5) :
    BudgetSerializer.run_validation db u cy inst p =
      BudgetSerializer.validate db u inst ⟨c, p.amount, p.month, p.year⟩ := by
  unfold BudgetSerializer.run_validation
  rw [hres]
  dsimp only
  rw [budget_validate_category_accepts howner]
  dsimp only
  rw [budget_validate_amount_accepts hamt]
  dsimp only
  rw [budget_monthFieldValidators_accepts hm1 hm2]
  dsimp only
  rw [budget_validate_month_accepts hm1 hm2]
  dsimp only
  rw [budget_yearFieldValidators_accepts hy1 hy2]
  dsimp only
  rw [budget_validate_year_accepts hy3 hy4]

/-- Full acceptance of the Budget write pipeline. -/
theorem budget_run_validation_accepts {db : Database} {u : Nat} {cy : Int}
    {inst : Option Nat} {p : BudgetPayload} {c : Category}
    (hres : resolveCategory db p.category = .ok c)
    (howner : c.user = u) (hamt : 0 < p.amount)
    (hm1 : 1 ≤ p.month) (hm2 : p.month ≤ 12)
    (hy1 : 2000 ≤ p.year) (hy2 : p.year ≤ 2100)
    (hy3 : cy - 5 ≤ p.year) (hy4 : p.year ≤ cy + 5)
    (huniq : BudgetSerializer.validate db u inst
        ⟨c, p.amount, p.month, p.year⟩ = .ok ⟨c, p.amount, p.month, p.year⟩) :
    BudgetSerializer.run_validation db u cy inst p =
      .ok ⟨c, p.amount, p.month, p.year⟩ := by
  rw [budget_run_validation_eq_validate hres howner hamt hm1 hm2 hy1 hy2 hy3 hy4]
  exact huniq

/-- A matching existing row makes the object-level validate raise the
non-field conflict error on create. -/
theorem budget_validate_create_conflict {db : Database} {u : Nat}
    {v : BudgetValidated} {x : Budget}
    (hm : v.month ≠ 0) (hy : v.year ≠ 0)
    (hx : x ∈ db.budgets)
    (hkey : budgetKeyMatches u v.category.id v.month v.year x = true) :
    BudgetSerializer.validate db u none v =
      .error (.nonField "A budget for this category in this month and year already exists.") := by
  unfold BudgetSerializer.validate
  rw [if_pos ⟨hm, hy⟩]
  dsimp only
  have hmem : x ∈ db.budgets.filter (budgetKeyMatches u v.category.id v.month v.year) :=
    List.mem_filter.mpr ⟨hx, hkey⟩
  have hne : db.budgets.filter (budgetKeyMatches u v.category.id v.month v.year) ≠ [] :=
    List.ne_nil_of_mem hmem
  rw [if_neg]
  simpa [List.isEmpty_iff] using hne

theorem resolveCategory_ok_mem {db : Database} {cid : Nat} {c : Category}
    (h : resolveCategory db cid = .ok c) :
    c ∈ db.categories ∧ c.id = cid := by
  have hf := resolveCategory_ok h
  refine ⟨List.mem_of_find?_eq_some hf, ?_⟩
  have := List.find?_some hf
  simpa using this

/-- C2.  Budget uniqueness validation: creating a budget whose
(user, category, month, year) key is already taken fails with the
non-field conflict error, while an update that keeps the instance's own
(category, month, year) and changes only the amount passes validation
(the instance is excluded from the conflict query) and stores the new
amount with every other stored field unchanged. -/
theorem C2_budget_uniqueness (db : Database) (u : Nat) (cy : Int)
    (p : BudgetPayload) (c : Category) (b0 : Budget) (amt : Int) (uAny : Option Nat) :
    (resolveCategory db p.category = .ok c → c.user = u → 0 < p.amount →
     1 ≤ p.month → p.month ≤ 12 →
     2000 ≤ p.year → p.year ≤ 2100 → cy - 5 ≤ p.year → p.year ≤ cy + 5 →
     (∃ x ∈ db.budgets, x.user = u ∧ x.category = p.category ∧
        x.month = p.month ∧ x.year = p.year) →
     BudgetSerializer.run_validation db u cy none p =
       .error (.nonField "A budget for this category in this month and year already exists.")) ∧
    (budgetUniqueConstraint db → b0 ∈ db.budgets → b0.user = u →
     resolveCategory db b0.category = .ok c → c.user = u → 0 < amt →
     1 ≤ b0.month → b0.month ≤ 12 →
     2000 ≤ b0.year → b0.year ≤ 2100 → cy - 5 ≤ b0.year → b0.year ≤ cy + 5 →
     BudgetSerializer.run_validation db u cy (some b0.id)
         ⟨uAny, b0.category, amt, b0.month, b0.year⟩ = .ok ⟨c, amt, b0.month, b0.year⟩ ∧
     (BudgetSerializer.update b0 ⟨c, amt, b0.month, b0.year⟩).amount = amt ∧
     (BudgetSerializer.update b0 ⟨c, amt, b0.month, b0.year⟩).user = b0.user ∧
     (BudgetSerializer.update b0 ⟨c, amt, b0.month, b0.year⟩).id = b0.id ∧
     (BudgetSerializer.update b0 ⟨c, amt, b0.month, b0.year⟩).category = b0.category ∧
     (BudgetSerializer.update b0 ⟨c, amt, b0.month, b0.year⟩).month = b0.month ∧
     (BudgetSerializer.update b0 ⟨c, amt, b0.month, b0.year⟩).year = b0.year) := by
  constructor
  · intro hres howner hamt hm1 hm2 hy1 hy2 hy3 hy4 hdup
    obtain ⟨x, hx, hxu, hxc, hxm, hxy⟩ := hdup
    obtain ⟨_, hcid⟩ := resolveCategory_ok_mem hres
    rw [budget_run_validation_eq_validate hres howner hamt hm1 hm2 hy1 hy2 hy3 hy4]
    exact budget_validate_create_conflict (by show p.month ≠ 0; omega)
      (by show p.year ≠ 0; omega) hx
      (by simp [budgetKeyMatches, hxu, hxc, hxm, hxy, hcid])
  · intro hcon hb0 hb0u hres howner hamt hm1 hm2 hy1 hy2 hy3 hy4
    obtain ⟨_, hcid⟩ := resolveCategory_ok_mem hres
    have hval : BudgetSerializer.validate db u (some b0.id)
        ⟨c, amt, b0.month, b0.year⟩ = .ok ⟨c, amt, b0.month, b0.year⟩ := by
      apply budget_validate_update_accepts
      intro x hx hk
      simp only [budgetKeyMatches, Bool.and_eq_true, beq_iff_eq] at hk
      obtain ⟨⟨⟨hku, hkc⟩, hkm⟩, hky⟩ := hk
      have : x = b0 := hcon x hx b0 hb0 (by omega) (by omega) hkm hky
      rw [this]
    refine ⟨?_, rfl, rfl, rfl, by simp [BudgetSerializer.update, hcid], rfl, rfl⟩
    exact budget_run_validation_accepts hres howner hamt hm1 hm2 hy1 hy2 hy3 hy4 hval

/-- Concrete instantiation of C2: a second budget for the same key is
rejected with the non-field error; bumping the first budget's amount
while keeping its own key validates. -/
theorem C2_budget_uniqueness_witness :
    BudgetSerializer.run_validation
        ⟨[⟨1, "Food", 7⟩], [], [⟨1, 7, 1, 30000, 3, 2025⟩]⟩ 7 2025 none
        ⟨none, 1, 12345, 3, 2025⟩ =
      .error (.nonField "A budget for this category in this month and year already exists.") ∧
    BudgetSerializer.run_validation
        ⟨[⟨1, "Food", 7⟩], [], [⟨1, 7, 1, 30000, 3, 2025⟩]⟩ 7 2025 (some 1)
        ⟨none, 1, 40000, 3, 2025⟩ =
      .ok ⟨⟨1, "Food", 7⟩, 40000, 3, 2025⟩ := by
  constructor
  · exact (C2_budget_uniqueness ⟨[⟨1, "Food", 7⟩], [], [⟨1, 7, 1, 30000, 3, 2025⟩]⟩
      7 2025 ⟨none, 1, 12345, 3, 2025⟩ ⟨1, "Food", 7⟩ ⟨1, 7, 1, 30000, 3, 2025⟩ 0 none).1
      (by rfl) (by decide) (by decide) (by decide) (by decide) (by decide) (by decide)
      (by decide) (by decide)
      ⟨⟨1, 7, 1, 30000, 3, 2025⟩, by decide, by decide, by decide, by decide, by decide⟩
  · exact ((C2_budget_uniqueness ⟨[⟨1, "Food", 7⟩], [], [⟨1, 7, 1, 30000, 3, 2025⟩]⟩
      7 2025 ⟨none, 1, 12345, 3, 2025⟩ ⟨1, "Food", 7⟩ ⟨1, 7, 1, 30000, 3, 2025⟩ 40000 none).2
      (by unfold budgetUniqueConstraint; decide) (by decide) (by decide) (by rfl) (by decide) (by decide) (by decide)
      (by decide) (by decide) (by decide) (by decide) (by decide)).1

/-- C5, counterexample.  The claim says every year from current_year−5
through current_year+5 is accepted; but the MinValueValidator(2000)
declared on Budget.year also runs on every write, so with the clock at
2004 the year 1999 = current_year−5 is rejected, not accepted: an
otherwise fully valid create fails. -/
theorem C5_counterexample :
    ((2004 : Int) - 5 ≤ 1999 ∧ (1999 : Int) ≤ 2004 + 5) ∧
    isErr (BudgetSerializer.run_validation ⟨[⟨1, "Food", 7⟩], [], []⟩ 7 2004 none
      ⟨none, 1, 100, 3, 1999⟩) = true := by
  exact ⟨⟨by decide, by decide⟩, by rfl⟩

/-- C5, as amended: Budget writes always reject year 1999 and year 2106
and months 0 and 13; a year is accepted when it lies within BOTH the
model-validator window [2000, 2100] AND the serializer window
[current_year−5, current_year+5] (an otherwise valid create then
passes). -/
theorem C5_budget_year_month_bounds (db : Database) (u : Nat) (cy : Int)
    (inst : Option Nat) (p : BudgetPayload) (c : Category) :
    (p.year = 1999 → isErr (BudgetSerializer.run_validation db u cy inst p) = true) ∧
    (p.year = 2106 → isErr (BudgetSerializer.run_validation db u cy inst p) = true) ∧
    (p.month = 0 → isErr (BudgetSerializer.run_validation db u cy inst p) = true) ∧
    (p.month = 13 → isErr (BudgetSerializer.run_validation db u cy inst p) = true) ∧
    (resolveCategory db p.category = .ok c → c.user = u → 0 < p.amount →
     1 ≤ p.month → p.month ≤ 12 →
     2000 ≤ p.year → p.year ≤ 2100 → cy - 5 ≤ p.year → p.year ≤ cy + 5 →
     db.budgets.filter (budgetKeyMatches u c.id p.month p.year) = [] →
     BudgetSerializer.run_validation db u cy none p =
       .ok ⟨c, p.amount, p.month, p.year⟩) := by
  have reject : ∀ (q : Prop), (¬ q) →
      (1 ≤ p.month → p.month ≤ 12 → 2000 ≤ p.year → p.year ≤ 2100 →
        cy - 5 ≤ p.year → p.year ≤ cy + 5 → q) →
      isErr (BudgetSerializer.run_validation db u cy inst p) = true := by
    intro q hq himp
    cases hr : BudgetSerializer.run_validation db u cy inst p with
    | error e => rfl
    | ok v =>
      obtain ⟨_, _, _, _, hm1, hm2, _, hy1, hy2, hy3, hy4, _⟩ :=
        budget_run_validation_ok hr
      exact absurd (himp hm1 hm2 hy1 hy2 hy3 hy4) hq
  refine ⟨?_, ?_, ?_, ?_, ?_⟩
  · intro hy
    exact reject (2000 ≤ p.year) (by omega) (fun _ _ h _ _ _ => h)
  · intro hy
    exact reject (p.year ≤ 2100) (by omega) (fun _ _ _ h _ _ => h)
  · intro hm
    exact reject (1 ≤ p.month) (by omega) (fun h _ _ _ _ _ => h)
  · intro hm
    exact reject (p.month ≤ 12) (by omega) (fun _ h _ _ _ _ => h)
  · intro hres howner hamt hm1 hm2 hy1 hy2 hy3 hy4 hq
    obtain ⟨_, hcid⟩ := resolveCategory_ok_mem hres
    refine budget_run_validation_accepts hres howner hamt hm1 hm2 hy1 hy2 hy3 hy4 ?_
    apply budget_validate_create_accepts
    show db.budgets.filter (budgetKeyMatches u c.id p.month p.year) = []
    exact hq

/-- Concrete instantiation of the amended C5 at clock year 2025:
1999, 2106, month 0 and month 13 rejected; year 2030 accepted. -/
theorem C5_budget_year_month_bounds_witness :
    isErr (BudgetSerializer.run_validation ⟨[⟨1, "Food", 7⟩], [], []⟩ 7 2025 none
      ⟨none, 1, 100, 3, 1999⟩) = true ∧
    isErr (BudgetSerializer.run_validation ⟨[⟨1, "Food", 7⟩], [], []⟩ 7 2025 none
      ⟨none, 1, 100, 3, 2106⟩) = true ∧
    isErr (BudgetSerializer.run_validation ⟨[⟨1, "Food", 7⟩], [], []⟩ 7 2025 none
      ⟨none, 1, 100, 0, 2025⟩) = true ∧
    isErr (BudgetSerializer.run_validation ⟨[⟨1, "Food", 7⟩], [], []⟩ 7 2025 none
      ⟨none, 1, 100, 13, 2025⟩) = true ∧
    BudgetSerializer.run_validation ⟨[⟨1, "Food", 7⟩], [], []⟩ 7 2025 none
      ⟨none, 1, 100, 3, 2030⟩ = .ok ⟨⟨1, "Food", 7⟩, 100, 3, 2030⟩ := by
  refine ⟨?_, ?_, ?_, ?_, ?_⟩
  · exact (C5_budget_year_month_bounds ⟨[⟨1, "Food", 7⟩], [], []⟩ 7 2025 none
      ⟨none, 1, 100, 3, 1999⟩ ⟨1, "Food", 7⟩).1 (by decide)
  · exact (C5_budget_year_month_bounds ⟨[⟨1, "Food", 7⟩], [], []⟩ 7 2025 none
      ⟨none, 1, 100, 3, 2106⟩ ⟨1, "Food", 7⟩).2.1 (by decide)
  · exact (C5_budget_year_month_bounds ⟨[⟨1, "Food", 7⟩], [], []⟩ 7 2025 none
      ⟨none, 1, 100, 0, 2025⟩ ⟨1, "Food", 7⟩).2.2.1 (by decide)
  · exact (C5_budget_year_month_bounds ⟨[⟨1, "Food", 7⟩], [], []⟩ 7 2025 none
      ⟨none, 1, 100, 13, 2025⟩ ⟨1, "Food", 7⟩).2.2.2.1 (by decide)
  · exact (C5_budget_year_month_bounds ⟨[⟨1, "Food", 7⟩], [], []⟩ 7 2025 none
      ⟨none, 1, 100, 3, 2030⟩ ⟨1, "Food", 7⟩).2.2.2.2 (by rfl) (by decide) (by decide)
      (by decide) (by decide) (by decide) (by decide) (by decide) (by decide) (by rfl)

/-! ### Transaction pipeline lemmas -/

theorem transaction_validate_category_some_ok {u : Nat} {c : Category}
    {w : Option Category}
    (h : TransactionSerializer.validate_category u (some c) = .ok w) :
    c.user = u ∧ w = some c := by
  unfold TransactionSerializer.validate_category at h
  dsimp only at h
  split at h
  · cases h
  · cases h
    exact ⟨by omega, rfl⟩

theorem transaction_validate_amount_ok {a b : Int}
    (h : TransactionSerializer.validate_amount a = .ok b) : 0 < a ∧ b = a := by
  unfold TransactionSerializer.validate_amount at h
  split at h
  · cases h
  · cases h
    exact ⟨by omega, rfl⟩

theorem transaction_validate_description_ok {a b : String}
    (h : TransactionSerializer.validate_description a = .ok b) :
    2 ≤ (pyStrip a).length ∧ b = pyStrip a := by
  unfold TransactionSerializer.validate_description at h
  split at h
  · cases h
  · cases h
    exact ⟨by omega, rfl⟩

/-- Full inversion for the Transaction write pipeline. -/
theorem transaction_run_validation_ok {db : Database} {u : Nat}
    {p : TransactionPayload} {v : TransactionValidated}
    (h : TransactionSerializer.run_validation db u p = .ok v) :
    0 < p.amount ∧ v.amount = p.amount ∧
    2 ≤ (pyStrip p.description).length ∧ v.description = (pyStrip p.description) ∧
    v.date = p.date ∧
    v.transaction_type = p.transaction_type.getD TransactionType.expense ∧
    (p.category = none → v.category = none) ∧
    (∀ cid, p.category = some cid →
      ∃ c, resolveCategory db cid = .ok c ∧ c.user = u ∧ v.category = some c) := by
  unfold TransactionSerializer.run_validation at h
  cases hpc : p.category with
  | none =>
    rw [hpc] at h
    dsimp only [TransactionSerializer.validate_category] at h
    cases hamt : TransactionSerializer.validate_amount p.amount with
    | error e => rw [hamt] at h; cases h
    | ok amount =>
    rw [hamt] at h; dsimp only at h
    cases hd : TransactionSerializer.validate_description p.description with
    | error e => rw [hd] at h; cases h
    | ok descr =>
    rw [hd] at h; dsimp only at h
    obtain ⟨hap, haeq⟩ := transaction_validate_amount_ok hamt
    obtain ⟨hdp, hdeq⟩ := transaction_validate_description_ok hd
    cases h
    subst haeq hdeq
    refine ⟨hap, rfl, hdp, rfl, rfl, rfl, fun _ => rfl, ?_⟩
    intro cid hc
    cases hc
  | some cid =>
    rw [hpc] at h
    dsimp only at h
    cases hres : resolveCategory db cid with
    | error e => rw [hres] at h; cases h
    | ok c0 =>
    rw [hres] at h; dsimp only at h
    cases hcat : TransactionSerializer.validate_category u (some c0) with
    | error e => rw [hcat] at h; cases h
    | ok cat =>
    rw [hcat] at h; dsimp only at h
    cases hamt : TransactionSerializer.validate_amount p.amount with
    | error e => rw [hamt] at h; cases h
    | ok amount =>
    rw [hamt] at h; dsimp only at h
    cases hd : TransactionSerializer.validate_description p.description with
    | error e => rw [hd] at h; cases h
    | ok descr =>
    rw [hd] at h; dsimp only at h
    obtain ⟨hcu, hceq⟩ := transaction_validate_category_some_ok hcat
    obtain ⟨hap, haeq⟩ := transaction_validate_amount_ok hamt
    obtain ⟨hdp, hdeq⟩ := transaction_validate_description_ok hd
    cases h
    subst hceq haeq hdeq
    refine ⟨hap, rfl, hdp, rfl, rfl, rfl, ?_, ?_⟩
    · intro hc
      cases hc
    · intro cid2 hc
      cases hc
      exact ⟨c0, hres, hcu, rfl⟩

/-- Acceptance of the Transaction pipeline with a null category. -/
theorem transaction_run_validation_none_accepts {db : Database} {u : Nat}
    {p : TransactionPayload}
    (hc : p.category = none) (ha : 0 < p.amount)
    (hd : 2 ≤ (pyStrip p.description).length) :
    TransactionSerializer.run_validation db u p =
      .ok ⟨none, p.amount, (pyStrip p.description), p.date,
           p.transaction_type.getD TransactionType.expense⟩ := by
  unfold TransactionSerializer.run_validation
  rw [hc]
  dsimp only [TransactionSerializer.validate_category]
  unfold TransactionSerializer.validate_amount
  rw [if_neg (by omega)]
  dsimp only
  unfold TransactionSerializer.validate_description
  rw [if_neg (by omega)]

/-- C4.  Cross-entity ownership and field validation on writes: a
Transaction or Budget write naming a category owned by another user
fails with a ValidationError; a Transaction write may omit the category
(null), and then validates and stores a null category reference; a
non-positive amount or a trimmed description shorter than 2 characters
is rejected. -/
theorem C4_cross_entity_ownership (db : Database) (u : Nat) (cy : Int)
    (instB : Option Nat) (p : TransactionPayload) (pb : BudgetPayload)
    (cid newId : Nat) (c cb : Category) :
    (p.category = some cid → resolveCategory db cid = .ok c → c.user ≠ u →
      isErr (TransactionSerializer.run_validation db u p) = true) ∧
    (resolveCategory db pb.category = .ok cb → cb.user ≠ u →
      isErr (BudgetSerializer.run_validation db u cy instB pb) = true) ∧
    (p.category = none → 0 < p.amount → 2 ≤ (pyStrip p.description).length →
      TransactionSerializer.run_validation db u p =
        .ok ⟨none, p.amount, (pyStrip p.description), p.date,
             p.transaction_type.getD TransactionType.expense⟩ ∧
      (TransactionSerializer.create u newId
        ⟨none, p.amount, (pyStrip p.description), p.date,
         p.transaction_type.getD TransactionType.expense⟩).category = none) ∧
    (p.amount ≤ 0 → isErr (TransactionSerializer.run_validation db u p) = true) ∧
    ((pyStrip p.description).length < 2 →
      isErr (TransactionSerializer.run_validation db u p) = true) := by
  refine ⟨?_, ?_, ?_, ?_, ?_⟩
  · intro hpc hres howner
    cases hr : TransactionSerializer.run_validation db u p with
    | error e => rfl
    | ok v =>
      obtain ⟨_, _, _, _, _, _, _, hsome⟩ := transaction_run_validation_ok hr
      obtain ⟨c2, hres2, hcu2, _⟩ := hsome cid hpc
      rw [hres] at hres2
      cases hres2
      exact absurd hcu2 howner
  · intro hres howner
    cases hr : BudgetSerializer.run_validation db u cy instB pb with
    | error e => rfl
    | ok v =>
      obtain ⟨hres2, hcu2, _⟩ := budget_run_validation_ok hr
      rw [hres] at hres2
      cases hres2
      exact absurd hcu2 howner
  · intro hc ha hd
    exact ⟨transaction_run_validation_none_accepts hc ha hd, rfl⟩
  · intro ha
    cases hr : TransactionSerializer.run_validation db u p with
    | error e => rfl
    | ok v =>
      obtain ⟨hap, _⟩ := transaction_run_validation_ok hr
      omega
  · intro hd
    cases hr : TransactionSerializer.run_validation db u p with
    | error e => rfl
    | ok v =>
      obtain ⟨_, _, hdp, _⟩ := transaction_run_validation_ok hr
      omega

/-- Concrete instantiation of C4: a foreign category is rejected for
both entities, a null category is stored as null, and bad amounts and
short descriptions are rejected. -/
theorem C4_cross_entity_ownership_witness :
    isErr (TransactionSerializer.run_validation ⟨[⟨1, "Food", 9⟩], [], []⟩ 7
      ⟨none, some 1, 100, "lunch", 5, none⟩) = true ∧
    isErr (BudgetSerializer.run_validation ⟨[⟨1, "Food", 9⟩], [], []⟩ 7 2025 none
      ⟨none, 1, 100, 3, 2025⟩) = true ∧
    TransactionSerializer.run_validation ⟨[⟨1, "Food", 9⟩], [], []⟩ 7
      ⟨none, none, 100, "lunch", 5, none⟩ =
      .ok ⟨none, 100, "lunch", 5, TransactionType.expense⟩ ∧
    isErr (TransactionSerializer.run_validation ⟨[⟨1, "Food", 9⟩], [], []⟩ 7
      ⟨none, none, 0, "lunch", 5, none⟩) = true ∧
    isErr (TransactionSerializer.run_validation ⟨[⟨1, "Food", 9⟩], [], []⟩ 7
      ⟨none, none, 100, " x ", 5, none⟩) = true := by
  refine ⟨?_, ?_, ?_, ?_, ?_⟩
  · exact (C4_cross_entity_ownership ⟨[⟨1, "Food", 9⟩], [], []⟩ 7 2025 none
      ⟨none, some 1, 100, "lunch", 5, none⟩ ⟨none, 1, 100, 3, 2025⟩ 1 1
      ⟨1, "Food", 9⟩ ⟨1, "Food", 9⟩).1 rfl (by rfl) (by decide)
  · exact (C4_cross_entity_ownership ⟨[⟨1, "Food", 9⟩], [], []⟩ 7 2025 none
      ⟨none, some 1, 100, "lunch", 5, none⟩ ⟨none, 1, 100, 3, 2025⟩ 1 1
      ⟨1, "Food", 9⟩ ⟨1, "Food", 9⟩).2.1 (by rfl) (by decide)
  · exact ((C4_cross_entity_ownership ⟨[⟨1, "Food", 9⟩], [], []⟩ 7 2025 none
      ⟨none, none, 100, "lunch", 5, none⟩ ⟨none, 1, 100, 3, 2025⟩ 1 1
      ⟨1, "Food", 9⟩ ⟨1, "Food", 9⟩).2.2.1 rfl (by decide) (by decide)).1
  · exact (C4_cross_entity_ownership ⟨[⟨1, "Food", 9⟩], [], []⟩ 7 2025 none
      ⟨none, none, 0, "lunch", 5, none⟩ ⟨none, 1, 100, 3, 2025⟩ 1 1
      ⟨1, "Food", 9⟩ ⟨1, "Food", 9⟩).2.2.2.1 (by decide)
  · exact (C4_cross_entity_ownership ⟨[⟨1, "Food", 9⟩], [], []⟩ 7 2025 none
      ⟨none, none, 100, " x ", 5, none⟩ ⟨none, 1, 100, 3, 2025⟩ 1 1
      ⟨1, "Food", 9⟩ ⟨1, "Food", 9⟩).2.2.2.2 (by decide)

/-- C10.  A Transaction write that omits transaction_type validates to
the model default EXPENSE, and the created row stores EXPENSE. -/
theorem C10_default_transaction_type (db : Database) (u newId : Nat)
    (p : TransactionPayload) (v : TransactionValidated)
    (hnone : p.transaction_type = none)
    (h : TransactionSerializer.run_validation db u p = .ok v) :
    v.transaction_type = TransactionType.expense ∧
    (TransactionSerializer.create u newId v).transaction_type =
      TransactionType.expense := by
  obtain ⟨_, _, _, _, _, hty, _⟩ := transaction_run_validation_ok h
  rw [hnone] at hty
  exact ⟨hty, hty⟩

/-- Concrete instantiation of C10. -/
theorem C10_default_transaction_type_witness :
    (TransactionSerializer.create 7 1
      ⟨none, 100, "lunch", 5, TransactionType.expense⟩).transaction_type =
      TransactionType.expense := by
  exact (C10_default_transaction_type ⟨[], [], []⟩ 7 1
    ⟨none, none, 100, "lunch", 5, none⟩
    ⟨none, 100, "lunch", 5, TransactionType.expense⟩ rfl (by rfl)).2

/-- C8.  Owner forcing: every created row stores the request user as
owner no matter what owner the payload carried (the user field is
read-only and create overwrites validated_data), and every update
leaves the instance's owner (and pk) unchanged while setting exactly
the writable fields. -/
theorem C8_owner_forcing (db : Database) (a newId : Nat) (cy : Int)
    (p : TransactionPayload) (pc : CategoryPayload) (pb : BudgetPayload)
    (instPk : Option Nat) (v : TransactionValidated) (w : BudgetValidated)
    (nm : String) (t0 : Transaction) (c0 : Category) (b0 : Budget) :
    (TransactionSerializer.run_validation db a p = .ok v →
      (TransactionSerializer.create a newId v).user = a) ∧
    (CategorySerializer.run_validation pc = .ok nm →
      (CategorySerializer.create a newId nm).user = a) ∧
    (BudgetSerializer.run_validation db a cy instPk pb = .ok w →
      (BudgetSerializer.create a newId w).user = a) ∧
    ((TransactionSerializer.update t0 v).user = t0.user ∧
     (TransactionSerializer.update t0 v).id = t0.id ∧
     (TransactionSerializer.update t0 v).category = (v.category.map Category.id) ∧
     (TransactionSerializer.update t0 v).amount = v.amount ∧
     (TransactionSerializer.update t0 v).description = v.description ∧
     (TransactionSerializer.update t0 v).date = v.date ∧
     (TransactionSerializer.update t0 v).transaction_type = v.transaction_type) ∧
    ((CategorySerializer.update c0 nm).user = c0.user ∧
     (CategorySerializer.update c0 nm).id = c0.id ∧
     (CategorySerializer.update c0 nm).name = nm) ∧
    ((BudgetSerializer.update b0 w).user = b0.user ∧
     (BudgetSerializer.update b0 w).id = b0.id ∧
     (BudgetSerializer.update b0 w).category = w.category.id ∧
     (BudgetSerializer.update b0 w).amount = w.amount ∧
     (BudgetSerializer.update b0 w).month = w.month ∧
     (BudgetSerializer.update b0 w).year = w.year) := by
  exact ⟨fun _ => rfl, fun _ => rfl, fun _ => rfl,
    ⟨rfl, rfl, rfl, rfl, rfl, rfl, rfl⟩,
    ⟨rfl, rfl, rfl⟩,
    ⟨rfl, rfl, rfl, rfl, rfl, rfl⟩⟩

/-- Concrete instantiation of C8: a payload that smuggles a foreign
owner id still yields rows owned by the caller. -/
theorem C8_owner_forcing_witness :
    (TransactionSerializer.create 7 1
      ⟨none, 100, "lunch", 5, TransactionType.expense⟩).user = 7 ∧
    (CategorySerializer.create 7 1 "Food").user = 7 ∧
    (BudgetSerializer.create 7 1 ⟨⟨1, "Food", 7⟩, 100, 3, 2025⟩).user = 7 := by
  have h := C8_owner_forcing ⟨[⟨1, "Food", 7⟩], [], []⟩ 7 1 2025
    ⟨some 9, none, 100, "lunch", 5, some TransactionType.expense⟩
    ⟨some 9, "Food"⟩ ⟨some 9, 1, 100, 3, 2025⟩ none
    ⟨none, 100, "lunch", 5, TransactionType.expense⟩
    ⟨⟨1, "Food", 7⟩, 100, 3, 2025⟩ "Food"
    ⟨1, 7, none, 100, "lunch", 5, TransactionType.expense⟩ ⟨1, "Food", 7⟩
    ⟨1, 7, 1, 100, 3, 2025⟩
  exact ⟨h.1 (by rfl), h.2.1 (by rfl), h.2.2.1 (by rfl)⟩

/-! ## Category deletion semantics -/

/-- Deleting a Category row applies the declared on_delete behaviour of
the two foreign keys referencing it: Transaction.category is SET_NULL,
Budget.category is CASCADE. -/
def Category.delete_instance (db : Database) (cid : Nat) : Database :=
  { categories := db.categories.filter (fun c => !(c.id == cid))
    transactions := db.transactions.map (fun t =>
      if t.category = some cid then { t with category := none } else t)
    budgets := db.budgets.filter (fun x => !(x.category == cid)) }

/-- C6.  Deleting a Category deletes every Budget referencing it and no
other budget, while every Transaction survives (same count): those that
referenced the category are kept with the reference nulled, the others
are kept unchanged, and no surviving transaction references the deleted
category. -/
theorem C6_category_delete_cascade (db : Database) (cid : Nat) :
    ((Category.delete_instance db cid).budgets =
       db.budgets.filter (fun x => !(x.category == cid))) ∧
    (∀ x ∈ (Category.delete_instance db cid).budgets, x.category ≠ cid) ∧
    (∀ x ∈ db.budgets, x.category ≠ cid →
       x ∈ (Category.delete_instance db cid).budgets) ∧
    ((Category.delete_instance db cid).transactions.length =
       db.transactions.length) ∧
    (∀ t ∈ db.transactions, t.category = some cid →
       { t with category := none } ∈ (Category.delete_instance db cid).transactions) ∧
    (∀ t ∈ db.transactions, t.category ≠ some cid →
       t ∈ (Category.delete_instance db cid).transactions) ∧
    (∀ t ∈ (Category.delete_instance db cid).transactions,
       t.category ≠ some cid) := by
  refine ⟨rfl, ?_, ?_, ?_, ?_, ?_, ?_⟩
  · intro x hx
    have := List.of_mem_filter hx
    simpa using this
  · intro x hx hne
    exact List.mem_filter.mpr ⟨hx, by simpa using hne⟩
  · exact List.length_map db.transactions _
  · intro t ht hcat
    apply List.mem_map.mpr
    exact ⟨t, ht, by rw [if_pos hcat]⟩
  · intro t ht hcat
    apply List.mem_map.mpr
    exact ⟨t, ht, by rw [if_neg hcat]⟩
  · intro t ht
    obtain ⟨t0, _, hmap⟩ := List.mem_map.mp ht
    by_cases h0 : t0.category = some cid
    · rw [if_pos h0] at hmap
      rw [← hmap]
      simp
    · rw [if_neg h0] at hmap
      rw [← hmap]
      exact h0

/-! ## List ordering

SQL ORDER BY on a queryset is modelled as a stable sort on the declared
key: rows tied on the whole key keep their table order. -/

def insertSorted {α : Type} (le : α → α → Bool) (x : α) : List α → List α
  | [] => [x]
  | y :: ys => if le y x then y :: insertSorted le x ys else x :: y :: ys

def orderBy {α : Type} (le : α → α → Bool) (l : List α) : List α :=
  l.foldl (fun acc x => insertSorted le x acc) []

theorem insertSorted_perm {α : Type} (le : α → α → Bool) (x : α) (l : List α) :
    (insertSorted le x l).Perm (x :: l) := by
  induction l with
  | nil => exact List.Perm.refl _
  | cons y ys ih =>
    unfold insertSorted
    split
    · exact (ih.cons y).trans (List.Perm.swap x y ys)
    · exact List.Perm.refl _

theorem orderBy_loop_perm {α : Type} (le : α → α → Bool) :
    ∀ (l acc : List α),
      (l.foldl (fun a x => insertSorted le x a) acc).Perm (acc ++ l) := by
  intro l
  induction l with
  | nil => intro acc; simp
  | cons x xs ih =>
    intro acc
    have h1 := ih (insertSorted le x acc)
    have h2 : (insertSorted le x acc ++ xs).Perm ((x :: acc) ++ xs) :=
      (insertSorted_perm le x acc).append_right xs
    have h3 : ((x :: acc) ++ xs).Perm (acc ++ x :: xs) := List.perm_middle.symm
    exact (h1.trans h2).trans h3

theorem orderBy_perm {α : Type} (le : α → α → Bool) (l : List α) :
    (orderBy le l).Perm l := by
  have := orderBy_loop_perm le l []
  simpa [orderBy] using this

theorem insertSorted_sorted {α : Type} {le : α → α → Bool}
    (htot : ∀ a b, le a b = false → le b a = true)
    (htrans : ∀ a b c, le a b = true → le b c = true → le a c = true)
    (x : α) {l : List α} (hs : l.Pairwise (fun a b => le a b = true)) :
    (insertSorted le x l).Pairwise (fun a b => le a b = true) := by
  induction l with
  | nil => simp [insertSorted]
  | cons y ys ih =>
    rw [List.pairwise_cons] at hs
    obtain ⟨hy, hys⟩ := hs
    unfold insertSorted
    split
    next hle =>
      rw [List.pairwise_cons]
      refine ⟨?_, ih hys⟩
      intro z hz
      rcases List.mem_cons.mp ((insertSorted_perm le x ys).mem_iff.mp hz) with rfl | hz2
      · exact hle
      · exact hy z hz2
    next hle =>
      have hxy : le x y = true := htot y x (by simpa using hle)
      rw [List.pairwise_cons]
      refine ⟨?_, List.pairwise_cons.mpr ⟨hy, hys⟩⟩
      intro z hz
      rcases List.mem_cons.mp hz with rfl | hz2
      · exact hxy
      · exact htrans x y z hxy (hy z hz2)

theorem orderBy_sorted {α : Type} {le : α → α → Bool}
    (htot : ∀ a b, le a b = false → le b a = true)
    (htrans : ∀ a b c, le a b = true → le b c = true → le a c = true)
    (l : List α) :
    (orderBy le l).Pairwise (fun a b => le a b = true) := by
  suffices key : ∀ (m acc : List α), acc.Pairwise (fun a b => le a b = true) →
      (m.foldl (fun a x => insertSorted le x a) acc).Pairwise
        (fun a b => le a b = true) by
    exact key l [] (by simp)
  intro m
  induction m with
  | nil => intro acc h; simpa using h
  | cons x xs ih =>
    intro acc h
    exact ih _ (insertSorted_sorted htot htrans x h)

/-- ORDER BY -year, -month as a Boolean total preorder (a may come
before b under the BudgetViewSet default ordering). -/
def budgetDefaultLe (a b : Budget) : Bool :=
  decide (b.year < a.year ∨ (a.year = b.year ∧ b.month ≤ a.month))

/-- The budget list endpoint under the declared default ordering
['-year', '-month'] of BudgetViewSet and Budget.Meta. -/
def BudgetViewSet.list (db : Database) (user : Nat) : List Budget :=
  orderBy budgetDefaultLe (BudgetViewSet.get_queryset db user)

/-- Name of a referenced category (join on category__name). -/
def categoryName (db : Database) (cid : Nat) : String :=
  match db.categories.find? (fun c => c.id == cid) with
  | some c => c.name
  | none => ""

/-- Lexicographic order on character lists (String order written so
that it evaluates). -/
def charListLe : List Char → List Char → Bool
  | [], _ => true
  | _ :: _, [] => false
  | a :: as, b :: bs => if a = b then charListLe as bs else decide (a < b)

/-- Lexicographic order on strings. -/
def strLe (a b : String) : Bool := charListLe a.data b.data

/-- The ordering the spec sentence describes: year desc, month desc,
then the referenced category name as the final tiebreak. -/
def budgetSpecLe (db : Database) (a b : Budget) : Bool :=
  decide (b.year < a.year) || (decide (a.year = b.year) &&
    (decide (b.month < a.month) || (decide (a.month = b.month) &&
      strLe (categoryName db a.category) (categoryName db b.category))))

/-- Adjacent-pair sortedness check. -/
def chainSorted {α : Type} (le : α → α → Bool) : List α → Bool
  | [] => true
  | [_] => true
  | a :: b :: rest => le a b && chainSorted le (b :: rest)

/-- C9, counterexample.  The default ordering coded on BudgetViewSet
and Budget.Meta is ['-year', '-month'] with no category-name key, so
two budgets tied on (year, month) stay in table order: with categories
named B (id 1) and A (id 2) and budgets referencing them in that order,
the listed result is not sorted by category name inside the tie. -/
theorem C9_counterexample :
    chainSorted
      (budgetSpecLe ⟨[⟨1, "B", 0⟩, ⟨2, "A", 0⟩], [],
        [⟨1, 0, 1, 100, 3, 2025⟩, ⟨2, 0, 2, 100, 3, 2025⟩]⟩)
      (BudgetViewSet.list ⟨[⟨1, "B", 0⟩, ⟨2, "A", 0⟩], [],
        [⟨1, 0, 1, 100, 3, 2025⟩, ⟨2, 0, 2, 100, 3, 2025⟩]⟩ 0) = false := by
  decide

/-- C9, as amended: the Budget list is the user's budgets ordered by
year descending then month descending only; rows tied on both keys are
not further ordered by category name (they keep table order). -/
theorem C9_budget_default_ordering (db : Database) (u : Nat) :
    (BudgetViewSet.list db u).Pairwise (fun a b => budgetDefaultLe a b = true) ∧
    (BudgetViewSet.list db u).Perm (BudgetViewSet.get_queryset db u) ∧
    (∀ x ∈ BudgetViewSet.list db u, x.user = u) := by
  have htot : ∀ a b : Budget, budgetDefaultLe a b = false → budgetDefaultLe b a = true := by
    intro a b h
    simp only [budgetDefaultLe, decide_eq_false_iff_not, not_or, not_and] at h
    simp only [budgetDefaultLe, decide_eq_true_eq]
    omega
  have htrans : ∀ a b c : Budget, budgetDefaultLe a b = true →
      budgetDefaultLe b c = true → budgetDefaultLe a c = true := by
    intro a b c h1 h2
    simp only [budgetDefaultLe, decide_eq_true_eq] at h1 h2 ⊢
    omega
  refine ⟨orderBy_sorted htot htrans _, orderBy_perm _ _, ?_⟩
  intro x hx
  have hx2 : x ∈ BudgetViewSet.get_queryset db u := (orderBy_perm _ _).mem_iff.mp hx
  exact owner_of_mem_filter Budget.user hx2

/-! ## Identity Store: users and tokens

accounts/views.py is embedded directly; the serializers it calls
(accounts/serializers.py) are not among the sources, so their checks
are modelled from the spec where noted. -/

/-- rest_framework.authtoken Token row: user FK (one-to-one), key pk. -/
structure Token where
  user : Nat
  key : Nat
deriving DecidableEq, Repr

/-- The accounts state: user rows (id, password) and token rows. -/
structure AuthState where
  users : List (Nat × String)
  tokens : List Token
deriving DecidableEq, Repr

/-- The caller's tokens. -/
def tokensOf (s : AuthState) (u : Nat) : List Token :=
  s.tokens.filter (fun t => t.user == u)

/-- Token.objects.get_or_create(user=user): hand back the existing
token, else insert one with a fresh key. -/
def Token.get_or_create (s : AuthState) (u freshKey : Nat) : Token × AuthState :=
  match s.tokens.find? (fun t => t.user == u) with
  | some t => (t, s)
  | none =>
      (⟨u, freshKey⟩, { s with tokens := (⟨u, freshKey⟩ : Token) :: s.tokens })

/-- Token authentication: resolve a presented key to its owner. -/
def Token.authenticate (s : AuthState) (key : Nat) : Option Nat :=
  (s.tokens.find? (fun t => t.key == key)).map Token.user

/-- Modelled from the spec: the password policy behind "weak password"
and "new password fails policy" (accounts/serializers.py is not among
the sources); modelled as a minimum length of 8. -/
def passwordPolicyOk (pw : String) : Bool := 8 ≤ pw.length

/-- UserRegistrationView.post: validate with UserRegistrationSerializer
(modelled from the spec: the new identity must be fresh and the
password must pass policy), save the User, then
Token.objects.get_or_create for it; on validation failure nothing is
written. -/
def UserRegistrationView.post (s : AuthState) (newUserId : Nat) (pw : String)
    (freshKey : Nat) : AuthState :=
  if (s.users.find? (fun x => x.1 == newUserId)).isNone && passwordPolicyOk pw then
    let s1 : AuthState := { s with users := (newUserId, pw) :: s.users }
    (Token.get_or_create s1 newUserId freshKey).2
  else s

/-- UserLoginView.post: verify the credential (UserLoginSerializer,
modelled from the spec), then Token.objects.get_or_create; on bad
credentials nothing is written. -/
def UserLoginView.post (s : AuthState) (uid : Nat) (pw : String)
    (freshKey : Nat) : AuthState :=
  match s.users.find? (fun x => x.1 == uid) with
  | some entry => if entry.2 == pw then (Token.get_or_create s uid freshKey).2 else s
  | none => s

/-- UserLogoutView.post: Token.objects.get(user=request.user).delete();
a missing token is a 400 with the state unchanged. -/
def UserLogoutView.post (s : AuthState) (uid : Nat) : AuthState :=
  match s.tokens.find? (fun t => t.user == uid) with
  | some t => { s with tokens := s.tokens.filter (fun x => !(x.key == t.key)) }
  | none => s

/-- PasswordChangeView.post: validate with PasswordChangeSerializer
(modelled from the spec: the old password must verify and the new one
must pass policy), save the new password, then delete the old token and
create a fresh one; returns the new token key on success. -/
def PasswordChangeView.post (s : AuthState) (uid : Nat) (oldPw newPw : String)
    (freshKey : Nat) : Option Nat × AuthState :=
  match s.users.find? (fun x => x.1 == uid) with
  | none => (none, s)
  | some entry =>
    if entry.2 == oldPw && passwordPolicyOk newPw then
      let s1 : AuthState :=
        { s with users := s.users.map (fun x => if x.1 == uid then (x.1, newPw) else x) }
      match s1.tokens.find? (fun t => t.user == uid) with
      | none => (none, s1)
      | some told =>
        let s2 : AuthState :=
          { s1 with tokens := s1.tokens.filter (fun x => !(x.key == told.key)) }
        (some freshKey, { s2 with tokens := (⟨uid, freshKey⟩ : Token) :: s2.tokens })
    else (none, s)

/-- The operations of the Identity Store that touch tokens. -/
inductive AuthOp where
  | register (newUserId : Nat) (pw : String) (freshKey : Nat)
  | login (uid : Nat) (pw : String) (freshKey : Nat)
  | logout (uid : Nat)
  | changePassword (uid : Nat) (oldPw newPw : String) (freshKey : Nat)

def authStep (s : AuthState) : AuthOp → AuthState
  | .register nid pw k => UserRegistrationView.post s nid pw k
  | .login uid pw k => UserLoginView.post s uid pw k
  | .logout uid => UserLogoutView.post s uid
  | .changePassword uid o n k => (PasswordChangeView.post s uid o n k).2

def authRun (s : AuthState) (ops : List AuthOp) : AuthState :=
  ops.foldl authStep s

/-- The invariant of the claim: at most one live token per user. -/
def atMostOneTokenPerUser (s : AuthState) : Prop :=
  ∀ u : Nat, (tokensOf s u).length ≤ 1

/-! ### Token invariant lemmas -/

theorem filter_comm_list {α : Type} (p q : α → Bool) (l : List α) :
    (l.filter p).filter q = (l.filter q).filter p := by
  rw [List.filter_filter, List.filter_filter]
  apply List.filter_congr
  intro x _
  rw [Bool.and_comm]

theorem mem_of_length_le_one {α : Type} {l : List α} {x : α}
    (hx : x ∈ l) (hl : l.length ≤ 1) : l = [x] := by
  cases l with
  | nil => cases hx
  | cons y ys =>
    cases ys with
    | nil =>
      rcases List.mem_singleton.mp hx with rfl
      rfl
    | cons z zs => simp at hl

theorem find?_none_filter_nil {α : Type} {p : α → Bool} {l : List α}
    (h : l.find? p = none) : l.filter p = [] := by
  rw [List.filter_eq_nil_iff]
  intro t ht
  have := List.find?_eq_none.mp h t ht
  simpa using this

theorem tokensOf_eq_singleton {s : AuthState} {u : Nat} {t : Token}
    (hinv : atMostOneTokenPerUser s) (ht : t ∈ s.tokens) (hu : t.user = u) :
    tokensOf s u = [t] := by
  have hmem : t ∈ tokensOf s u :=
    List.mem_filter.mpr ⟨ht, by simpa using hu⟩
  exact mem_of_length_le_one hmem (hinv u)

theorem get_or_create_preserves {s : AuthState} {u k : Nat}
    (h : atMostOneTokenPerUser s) :
    atMostOneTokenPerUser (Token.get_or_create s u k).2 := by
  unfold Token.get_or_create
  cases hf : s.tokens.find? (fun t => t.user == u) with
  | some t => exact h
  | none =>
    intro w
    show ((⟨u, k⟩ :: s.tokens : List Token).filter (fun t => t.user == w)).length ≤ 1
    rw [List.filter_cons]
    by_cases hw : w = u
    · subst hw
      have hnil : s.tokens.filter (fun t => t.user == w) = [] :=
        find?_none_filter_nil hf
      simp [hnil]
    · have hne : ((⟨u, k⟩ : Token).user == w) = false := by
        show (u == w) = false
        rw [beq_eq_false_iff_ne]
        omega
      simp only [hne, Bool.false_eq_true, if_false]
      exact h w

theorem filter_preserves {s : AuthState} (p : Token → Bool)
    (h : atMostOneTokenPerUser s) :
    atMostOneTokenPerUser { s with tokens := s.tokens.filter p } := by
  intro w
  show ((s.tokens.filter p).filter (fun t => t.user == w)).length ≤ 1
  have hsub := (List.filter_sublist (l := s.tokens) (p := p)).filter
    (fun t => t.user == w)
  exact le_trans (List.Sublist.length_le hsub) (h w)

/-- Deleting a user's only token and inserting a fresh one keeps every
user at no more than one token. -/
theorem rotate_preserves {l : List Token} {uid k : Nat} {told : Token}
    (hinv : ∀ u : Nat, (l.filter (fun t => t.user == u)).length ≤ 1)
    (htmem : told ∈ l) (htu : told.user = uid) :
    ∀ u : Nat,
      (((⟨uid, k⟩ : Token) :: l.filter (fun x => !(x.key == told.key))).filter
        (fun t => t.user == u)).length ≤ 1 := by
  intro w
  rw [List.filter_cons]
  by_cases hw : w = uid
  · subst hw
    have hone : l.filter (fun t => t.user == w) = [told] := by
      have hmem2 : told ∈ l.filter (fun t => t.user == w) :=
        List.mem_filter.mpr ⟨htmem, by simpa using htu⟩
      exact mem_of_length_le_one hmem2 (hinv w)
    have hnil : (l.filter (fun x => !(x.key == told.key))).filter
        (fun t => t.user == w) = [] := by
      rw [filter_comm_list, hone]
      simp
    simp [hnil]
  · have hne : ((⟨uid, k⟩ : Token).user == w) = false := by
      show (uid == w) = false
      rw [beq_eq_false_iff_ne]
      omega
    simp only [hne, Bool.false_eq_true, if_false]
    have hsub := (List.filter_sublist (l := l)
      (p := fun x => !(x.key == told.key))).filter (fun t => t.user == w)
    exact le_trans (List.Sublist.length_le hsub) (hinv w)

theorem authStep_preserves (s : AuthState) (op : AuthOp)
    (h : atMostOneTokenPerUser s) : atMostOneTokenPerUser (authStep s op) := by
  cases op with
  | register nid pw k =>
    show atMostOneTokenPerUser (UserRegistrationView.post s nid pw k)
    unfold UserRegistrationView.post
    split
    · exact get_or_create_preserves (s := ⟨(nid, pw) :: s.users, s.tokens⟩) h
    · exact h
  | login uid pw k =>
    show atMostOneTokenPerUser (UserLoginView.post s uid pw k)
    unfold UserLoginView.post
    split
    · split
      · exact get_or_create_preserves h
      · exact h
    · exact h
  | logout uid =>
    show atMostOneTokenPerUser (UserLogoutView.post s uid)
    unfold UserLogoutView.post
    split
    · exact filter_preserves _ h
    · exact h
  | changePassword uid o n k =>
    show atMostOneTokenPerUser (PasswordChangeView.post s uid o n k).2
    unfold PasswordChangeView.post
    split
    · exact h
    · split
      · dsimp only
        cases hf : List.find? (fun t => t.user == uid) s.tokens with
        | none => exact h
        | some told =>
          have htmem : told ∈ s.tokens := List.mem_of_find?_eq_some hf
          have htu : told.user = uid := by simpa using List.find?_some hf
          exact rotate_preserves h htmem htu
      · exact h

/-- C3.  After any sequence of Register / Login / Logout /
ChangePassword operations from a state satisfying it, every user still
has at most one live token; moreover get_or_create (used by Register
and Login) hands back the existing token unchanged instead of creating
a second one. -/
theorem C3_at_most_one_token (s : AuthState) (ops : List AuthOp)
    (h : atMostOneTokenPerUser s) :
    atMostOneTokenPerUser (authRun s ops) ∧
    (∀ u k t, s.tokens.find? (fun x => x.user == u) = some t →
      Token.get_or_create s u k = (t, s)) := by
  constructor
  · have key : ∀ (rest : List AuthOp) (s0 : AuthState),
        atMostOneTokenPerUser s0 → atMostOneTokenPerUser (authRun s0 rest) := by
      intro rest
      induction rest with
      | nil => intro s0 h0; exact h0
      | cons op tail ih =>
        intro s0 h0
        exact ih _ (authStep_preserves s0 op h0)
    exact key ops s h
  · intro u k t hf
    unfold Token.get_or_create
    rw [hf]

/-- Concrete instantiation of C3: register, login again, rotate the
password, log out — never more than one token. -/
theorem C3_at_most_one_token_witness :
    atMostOneTokenPerUser (authRun ⟨[], []⟩
      [.register 1 "password123" 10, .login 1 "password123" 11,
       .changePassword 1 "password123" "secret456xy" 12, .logout 1]) ∧
    Token.get_or_create ⟨[(1, "password123")], [⟨1, 10⟩]⟩ 1 99 =
      (⟨1, 10⟩, ⟨[(1, "password123")], [⟨1, 10⟩]⟩) := by
  constructor
  · exact (C3_at_most_one_token ⟨[], []⟩
      [.register 1 "password123" 10, .login 1 "password123" 11,
       .changePassword 1 "password123" "secret456xy" 12, .logout 1]
      (fun u => by simp [tokensOf])).1
  · exact (C3_at_most_one_token ⟨[(1, "password123")], [⟨1, 10⟩]⟩ []
      (fun u => by
        show ((([⟨1, 10⟩] : List Token)).filter (fun t => t.user == u)).length ≤ 1
        rw [List.filter_cons]
        split <;> simp)).2 1 99 ⟨1, 10⟩ (by rfl)

/-- Updating one user's password in the user table leaves that user
findable with the new password. -/
theorem find?_map_password {l : List (Nat × String)} {uid : Nat} {e : Nat × String}
    (h : l.find? (fun x => x.1 == uid) = some e) (newPw : String) :
    (l.map (fun x => if x.1 == uid then (x.1, newPw) else x)).find?
      (fun x => x.1 == uid) = some (e.1, newPw) := by
  induction l with
  | nil => cases h
  | cons y ys ih =>
    by_cases hy : (y.1 == uid) = true
    · rw [List.find?_cons_of_pos (p := fun x : Nat × String => x.1 == uid) _ hy] at h
      injection h with h2
      rw [List.map_cons]
      have hcond : (if y.1 == uid then (y.1, newPw) else y) = (y.1, newPw) := by
        simp [hy]
      rw [hcond, ← h2]
      exact List.find?_cons_of_pos (p := fun x : Nat × String => x.1 == uid) _ hy
    · rw [List.find?_cons_of_neg (p := fun x : Nat × String => x.1 == uid) _ hy] at h
      rw [List.map_cons]
      have hcond : (if y.1 == uid then (y.1, newPw) else y) = y := by
        have hyf : (y.1 == uid) = false := by simpa using hy
        simp [hyf]
      rw [hcond]
      rw [List.find?_cons_of_neg (p := fun x : Nat × String => x.1 == uid) _ hy]
      exact ih h

/-- C7.  ChangePassword for a caller whose old password verifies and
whose new password passes policy: the view answers the fresh token key,
that key differs from the old token's key, the caller's tokens
afterwards are exactly the one fresh token, the old token key no longer
authenticates anyone, and the stored password is the new one.  When the
old password is wrong or the policy fails, the response is an error and
the state (password and tokens) is unchanged. -/
theorem C7_change_password (s : AuthState) (uid : Nat)
    (oldPw newPw storedPw : String) (told : Token) (freshKey : Nat)
    (huser : s.users.find? (fun x => x.1 == uid) = some (uid, storedPw))
    (hinv : atMostOneTokenPerUser s)
    (htok : told ∈ s.tokens) (htu : told.user = uid)
    (hfresh : ∀ t ∈ s.tokens, t.key ≠ freshKey) :
    (storedPw = oldPw → passwordPolicyOk newPw = true →
      (PasswordChangeView.post s uid oldPw newPw freshKey).1 = some freshKey ∧
      freshKey ≠ told.key ∧
      tokensOf (PasswordChangeView.post s uid oldPw newPw freshKey).2 uid =
        [⟨uid, freshKey⟩] ∧
      Token.authenticate (PasswordChangeView.post s uid oldPw newPw freshKey).2
        told.key = none ∧
      (PasswordChangeView.post s uid oldPw newPw freshKey).2.users.find?
        (fun x => x.1 == uid) = some (uid, newPw)) ∧
    ((storedPw = oldPw ∧ passwordPolicyOk newPw = true → False) →
      PasswordChangeView.post s uid oldPw newPw freshKey = (none, s)) := by
  constructor
  · intro hold hpol
    unfold PasswordChangeView.post
    rw [huser]
    dsimp only
    have hcond : (storedPw == oldPw && passwordPolicyOk newPw) = true := by
      rw [Bool.and_eq_true]
      exact ⟨beq_iff_eq.mpr hold, hpol⟩
    rw [if_pos hcond]
    cases hfind : List.find? (fun t => t.user == uid) s.tokens with
    | none =>
      exfalso
      have := List.find?_eq_none.mp hfind told htok
      simp [htu] at this
    | some tfound =>
      have hfmem : tfound ∈ s.tokens := List.mem_of_find?_eq_some hfind
      have hfu : tfound.user = uid := by simpa using List.find?_some hfind
      have hone : s.tokens.filter (fun t => t.user == uid) = [told] := by
        have hmem2 : told ∈ s.tokens.filter (fun t => t.user == uid) :=
          List.mem_filter.mpr ⟨htok, by simpa using htu⟩
        exact mem_of_length_le_one hmem2 (hinv uid)
      have hfeq : tfound = told := by
        have hmem3 : tfound ∈ s.tokens.filter (fun t => t.user == uid) :=
          List.mem_filter.mpr ⟨hfmem, by simpa using hfu⟩
        rw [hone] at hmem3
        exact List.mem_singleton.mp hmem3
      subst hfeq
      have hkey : freshKey ≠ tfound.key := fun heq => hfresh tfound htok heq.symm
      refine ⟨rfl, hkey, ?_, ?_, ?_⟩
      · show ((⟨uid, freshKey⟩ ::
            s.tokens.filter (fun x => !(x.key == tfound.key)) : List Token).filter
            (fun t => t.user == uid)) = [⟨uid, freshKey⟩]
        rw [List.filter_cons]
        have hnil : (s.tokens.filter (fun x => !(x.key == tfound.key))).filter
            (fun t => t.user == uid) = [] := by
          rw [filter_comm_list, hone]
          simp
        simp [hnil]
      · show (((⟨uid, freshKey⟩ ::
            s.tokens.filter (fun x => !(x.key == tfound.key)) : List Token).find?
            (fun t => t.key == tfound.key)).map Token.user) = none
        have hhead : ¬(((⟨uid, freshKey⟩ : Token).key == tfound.key) = true) := by
          show ¬((freshKey == tfound.key) = true)
          simp
          exact hkey
        rw [List.find?_cons_of_neg (p := fun t : Token => t.key == tfound.key) _ hhead]
        have htail : (s.tokens.filter (fun x => !(x.key == tfound.key))).find?
            (fun t => t.key == tfound.key) = none := by
          rw [List.find?_eq_none]
          intro x hx
          have hxp := List.of_mem_filter hx
          simp at hxp ⊢
          exact hxp
        rw [htail]
        rfl
      · exact find?_map_password huser newPw
  · intro hnot
    unfold PasswordChangeView.post
    rw [huser]
    dsimp only
    rw [if_neg]
    intro hc
    rw [Bool.and_eq_true] at hc
    exact hnot ⟨beq_iff_eq.mp hc.1, hc.2⟩

/-- Concrete instantiation of C7: changing the password answers the
fresh key 12, leaves exactly one token for the user, and the old key 10
no longer authenticates; a wrong old password changes nothing. -/
theorem C7_change_password_witness :
    (PasswordChangeView.post ⟨[(1, "password123")], [⟨1, 10⟩]⟩ 1
      "password123" "secret456xy" 12).1 = some 12 ∧
    tokensOf (PasswordChangeView.post ⟨[(1, "password123")], [⟨1, 10⟩]⟩ 1
      "password123" "secret456xy" 12).2 1 = [⟨1, 12⟩] ∧
    Token.authenticate (PasswordChangeView.post ⟨[(1, "password123")], [⟨1, 10⟩]⟩ 1
      "password123" "secret456xy" 12).2 10 = none ∧
    PasswordChangeView.post ⟨[(1, "password123")], [⟨1, 10⟩]⟩ 1
      "wrong" "secret456xy" 12 = (none, ⟨[(1, "password123")], [⟨1, 10⟩]⟩) := by
  have hinv1 : atMostOneTokenPerUser ⟨[(1, "password123")], [⟨1, 10⟩]⟩ := by
    intro u
    show ((([⟨1, 10⟩] : List Token)).filter (fun t => t.user == u)).length ≤ 1
    rw [List.filter_cons]
    split <;> simp
  have h := C7_change_password ⟨[(1, "password123")], [⟨1, 10⟩]⟩ 1
    "password123" "secret456xy" "password123" ⟨1, 10⟩ 12
    (by rfl) hinv1 (by decide) (by rfl) (by decide)
  obtain ⟨h1, h2, h3, h4, _⟩ := h.1 rfl (by decide)
  have hfail := (C7_change_password ⟨[(1, "password123")], [⟨1, 10⟩]⟩ 1
    "wrong" "secret456xy" "password123" ⟨1, 10⟩ 12
    (by rfl) hinv1 (by decide) (by rfl) (by decide)).2
    (fun hc => absurd hc.1 (by decide))
  exact ⟨h1, h3, h4, hfail⟩

end FT
